import Mathlib

/-!
Verification of the conversational retrieval pipeline of the chemistry
chatbot repository.  The definitions below are shallow embeddings of the
Python sources: `src/agent/tools/search.py` (lexical lookup),
`src/agent/nodes/generate.py` (answer synthesis), `src/agent/nodes/rephrase.py`
(query resolution), `src/agent/nodes/conditional.py` (routing),
`src/services/gemini_service.py` (oracle retry loop) and
`src/services/qdrant_service.py` (hybrid ranked lookup).  Machine floats of
the sources are modelled as rationals; fallible code returns `Option` or a
sum-like outcome type.
-/

namespace ChemBot

/-- A catalog record as read by `search.py` from `chemistry_data.json` and as
carried in Qdrant payloads.  String fields missing from a JSON object are
modelled as the empty string, mirroring `compound.get(field, "")`; the media
fields use `Option` because `doc.get("image_path")` defaults to `None`. -/
structure Compound where
  doc_id : String
  iupac_name : String
  formula : String
  molecular_formula : String
  common_names : List String
  image_path : Option String
  audio_path : Option String
  deriving DecidableEq

/-- Python truthiness of an optional string: present and non-empty. -/
def truthyOpt : Option String → Bool
  | none => false
  | some s => s ≠ ""

/-- Descending order on the score component of a scored entry.  Sorting with
this relation models Python `list.sort(key=score, reverse=True)`. -/
def scoreGE {α : Type} (p q : α × ℚ) : Prop := q.2 ≤ p.2

instance {α : Type} : DecidableRel (@scoreGE α) :=
  fun p q => inferInstanceAs (Decidable (q.2 ≤ p.2))

instance {α : Type} : IsTotal (α × ℚ) scoreGE :=
  ⟨fun p q => le_total q.2 p.2⟩

instance {α : Type} : IsTrans (α × ℚ) scoreGE :=
  ⟨fun _ _ _ h1 h2 => le_trans h2 h1⟩

/-- Stable descending sort by score.  Python `list.sort` is stable, so the
unique stable result is reproduced by insertion sort with `scoreGE`. -/
def sortDesc {α : Type} (l : List (α × ℚ)) : List (α × ℚ) :=
  List.insertionSort scoreGE l

/-- First entry of maximal score: keeps the earliest entry on ties.  Used to
characterise the head of the stable descending sort. -/
def firstMax {α : Type} : List (α × ℚ) → Option (α × ℚ)
  | [] => none
  | a :: l =>
    match firstMax l with
    | none => some a
    | some b => if a.2 < b.2 then some b else some a

/-- Python `str.strip()`: drop whitespace from both ends.  Defined on the
character list so that it evaluates by kernel reduction. -/
def pyStrip (s : String) : String :=
  String.mk (((s.data.dropWhile Char.isWhitespace).reverse.dropWhile Char.isWhitespace).reverse)

/-- Python `str.upper()` (ASCII case mapping suffices for the catalog data). -/
def pyUpper (s : String) : String := String.mk (s.data.map Char.toUpper)

/-- Python `str.lower()` (ASCII case mapping suffices for the catalog data). -/
def pyLower (s : String) : String := String.mk (s.data.map Char.toLower)

/-- Python `max(gen, default=d)`: maximum of a list, `d` when the list is
empty, as used for the common-name score in `search_compound`. -/
def pyMax (d : ℚ) : List ℚ → ℚ
  | [] => d
  | a :: l => l.foldl max a

/-- Score of the query against the canonical IUPAC name:
`fuzz.token_sort_ratio(query_lower, iupac_name) / 100.0`.  The rapidfuzz
ratio is an external library function and enters as the `ratio` parameter,
assumed (where needed) to land in the interval [0, 100]. -/
def nameScore (ratio : String → String → ℚ) (qLower : String) (c : Compound) : ℚ :=
  ratio qLower (pyLower c.iupac_name) / 100

/-- Maximum score over the alternate common names, 0 when there are none:
`max((ratio(query_lower, cn) / 100.0 for cn in common_names), default=0)`. -/
def commonScore (ratio : String → String → ℚ) (qLower : String) (c : Compound) : ℚ :=
  pyMax 0 (c.common_names.map (fun n => ratio qLower (pyLower n) / 100))

/-- The `max_score = max(name_score, common_score)` of `search_compound`. -/
def maxScore (ratio : String → String → ℚ) (qLower : String) (c : Compound) : ℚ :=
  max (nameScore ratio qLower c) (commonScore ratio qLower c)

/-- Python `round(x, 2)` on the stored score.  Python rounds half to even on
binary floats; the model rounds half away from zero via `round`, which agrees
everywhere except exactly half-hundredth values, on which no claim depends. -/
def round2 (q : ℚ) : ℚ := (round (q * 100) : ℤ) / 100

/-- Query-type detection of `search_compound`: the stripped key is a
formula/symbol query when it has a digit and no hyphen, or when it is at most
2 characters long and starts with an uppercase character.  Reading the first
character of an empty stripped key raises `IndexError` in the source
(`query_stripped[0]`), modelled by `none`. -/
def isFormulaQuery (query : String) : Option Bool :=
  ((pyStrip query).data.head?).map (fun c0 =>
    let qs := pyStrip query
    let hasDigits := qs.data.any Char.isDigit
    let hasHyphen := decide ('-' ∈ qs.data)
    let isShortSymbol := decide (qs.data.length ≤ 2) && c0.isUpper
    ((hasDigits && !hasHyphen) || isShortSymbol))

/-- Exact formula comparison of `search_compound`:
`query_upper == formula or query_upper == molecular_formula`, both sides
upper-cased. -/
def formulaMatches (qUpper : String) (c : Compound) : Bool :=
  decide (qUpper = pyUpper c.formula) || decide (qUpper = pyUpper c.molecular_formula)

/-- The `results` list accumulated by the catalog loop of `search_compound`,
in catalog order: exact matches with score 1.0 for formula queries, fuzzy
matches with `round(max_score, 2)` kept at threshold 0.7 for name queries. -/
def matchList (ratio : String → String → ℚ) (query : String)
    (compounds : List Compound) : Bool → List (Compound × ℚ)
  | true =>
    (compounds.filter (formulaMatches (pyStrip (pyUpper query)))).map (fun c => (c, 1))
  | false =>
    compounds.filterMap (fun c =>
      let ms := maxScore ratio (pyStrip (pyLower query)) c
      if (7 : ℚ)/10 ≤ ms then some (c, round2 ms) else none)

/-- Outcome of `search_compound`: the data-load failure message, the
`IndexError` raised on an empty stripped key, the explicit no-match message,
or the single best record (its score key removed). -/
inductive SearchOutcome where
  | dataError
  | indexError
  | noMatch (query : String)
  | found (c : Compound)
  deriving DecidableEq

/-- The lexical lookup `search_compound` of `src/agent/tools/search.py`:
classify the query, build the scored match list, sort it stably by score
descending and return the top record with its score removed. -/
def search_compound (ratio : String → String → ℚ) (query : String)
    (compounds : List Compound) : SearchOutcome :=
  if compounds = [] then .dataError
  else
    match isFormulaQuery query with
    | none => .indexError
    | some isFormula =>
      match (sortDesc (matchList ratio query compounds isFormula)).head? with
      | none => .noMatch query
      | some best => .found best.1

/-- The structured oracle output `FinalResponse` of `src/agent/schemas.py`. -/
structure FinalResponse where
  text_response : String
  selected_doc_id : Option String
  should_return_image : Bool
  should_return_audio : Bool
  deriving DecidableEq

/-- The `final_response` dictionary produced by the generation node. -/
structure FinalOut where
  text_response : String
  image_path : Option String
  audio_path : Option String
  deriving DecidableEq

/-- The media-selection loop of `generate_response`: when the oracle selected
a document id (truthy) and the RAG context is non-empty, the first document
with that id contributes its image/audio paths, each gated by the oracle flag
and by Python truthiness of the stored path. -/
def pickMedia (resp : FinalResponse) (rag : List Compound) : Option String × Option String :=
  match resp.selected_doc_id with
  | none => (none, none)
  | some sid =>
    if sid = "" then (none, none)
    else if rag = [] then (none, none)
    else
      match rag.find? (fun d => decide (d.doc_id = sid)) with
      | none => (none, none)
      | some d =>
        ((if resp.should_return_image && truthyOpt d.image_path then d.image_path else none),
         (if resp.should_return_audio && truthyOpt d.audio_path then d.audio_path else none))

/-- The direct-knowledge path `_generate_direct_response`: media paths are the
literal `None` constants; a `None` oracle reply yields the fallback message. -/
def generate_direct_response (oracle : Option FinalResponse) : FinalOut :=
  match oracle with
  | none => ⟨"Xin lỗi, đã có lỗi khi xử lý câu hỏi.", none, none⟩
  | some resp => ⟨resp.text_response, none, none⟩

/-- The generation node `generate_response` of `src/agent/nodes/generate.py`,
restricted to its output behaviour: route to the direct path when
`state.get("needs_rag", True)` is false, otherwise attach media via
`pickMedia`.  The oracle reply enters as a parameter (`none` models the
`response is None` branch). -/
def generate_response (needs_rag : Option Bool) (rag : List Compound)
    (oracle : Option FinalResponse) : FinalOut :=
  if !(needs_rag.getD true) then generate_direct_response oracle
  else
    match oracle with
    | none => ⟨"Xin lỗi, đã có lỗi khi xử lý phản hồi từ hệ thống.", none, none⟩
    | some resp =>
      let m := pickMedia resp rag
      ⟨resp.text_response, m.1, m.2⟩

/-- Position of the first occurrence of an element in a ranking (0-based). -/
def idxOf? {α : Type} [DecidableEq α] (a : α) : List α → Option ℕ
  | [] => none
  | b :: l => if a = b then some 0 else (idxOf? a l).map (· + 1)

/-- Modelled from the spec: the Reciprocal Rank Fusion score computed inside
the external Qdrant engine for `FusionQuery(fusion=RRF)` — the sum over the
contributing rankings of 1 / (k + rank) with k = 60 and 1-based ranks,
candidates absent from a ranking contributing 0 (spec §4.6). -/
def rrfScore {α : Type} [DecidableEq α] (rankings : List (List α)) (c : α) : ℚ :=
  (rankings.map (fun r =>
    match idxOf? c r with
    | some i => 1 / (60 + (i : ℚ) + 1)
    | none => 0)).sum

/-- Deduplication keeping the first occurrence, used to form the fused
candidate pool from the two prefetched rankings. -/
def dedupFirstGo {α : Type} [DecidableEq α] (seen : List α) : List α → List α
  | [] => []
  | a :: l => if a ∈ seen then dedupFirstGo seen l else a :: dedupFirstGo (a :: seen) l

def dedupFirst {α : Type} [DecidableEq α] (l : List α) : List α := dedupFirstGo [] l

/-- The hybrid ranked lookup `QdrantService.hybrid_search`.  The two
prefetches of 10 candidates (dense and sparse), the RRF fusion and the result
limit are executed by the external Qdrant engine via `client.query_points`;
that part is modelled from spec §4.6 (`rrfScore`, descending sort, take
`lim`).  The trailing threshold filter `point.score >= threshold` is the
repository's own code. -/
def hybrid_search {α : Type} [DecidableEq α] (dense sparse : List α)
    (lim : ℕ) (threshold : ℚ) : List (α × ℚ) :=
  let d := dense.take 10
  let s := sparse.take 10
  let candidates := dedupFirst (d ++ s)
  let scored := candidates.map (fun c => (c, rrfScore [d, s] c))
  ((sortDesc scored).take lim).filter (fun p => decide (threshold ≤ p.2))

/-- Scanner for the tail of the regex `[^)]+\)`: after the first character
(checked non-`)` by `findClose`), consume characters up to the first `)`. -/
def findCloseGo : List Char → Option (List Char)
  | [] => none
  | c :: rest => if c = ')' then some rest else findCloseGo rest

/-- Match `[^)]+\)` at the start of the character list, returning the
remainder after the closing parenthesis. -/
def findClose : List Char → Option (List Char)
  | [] => none
  | c :: rest => if c = ')' then none else findCloseGo rest

/-- Lazy scan of the regex fragment `.*?\]\(data:[^)]+\)` used by
`rephrase_query` to remove inline base64 images: at each position try to
match the literal `](data:` followed by `[^)]+)`; otherwise consume one
non-newline character into the lazy `.*?`. -/
def findBody : List Char → Option (List Char)
  | [] => none
  | c :: rest =>
    if c = ']' then
      match rest with
      | '(' :: 'd' :: 'a' :: 't' :: 'a' :: ':' :: rest2 =>
        match findClose rest2 with
        | some r => some r
        | none => findBody rest
      | _ => findBody rest
    else if c = '\n' then none else findBody rest

/-- Fuel-indexed scanner performing
`re.sub(r'!\[.*?\]\(data:[^)]+\)', '[IMAGE]', s)` of `rephrase_query`:
each match is replaced with the `[IMAGE]` marker.  The fuel (initially the
input length) strictly bounds the recursion; it never runs out because each
step consumes at least one character. -/
def subImagesGo : ℕ → List Char → List Char
  | 0, cs => cs
  | _ + 1, [] => []
  | fuel + 1, c :: rest =>
    if c = '!' then
      match rest with
      | '[' :: rest2 =>
        match findBody rest2 with
        | some r => "[IMAGE]".data ++ subImagesGo fuel r
        | none => c :: subImagesGo fuel rest
      | _ => c :: subImagesGo fuel rest
    else c :: subImagesGo fuel rest

def subBase64Images (s : String) : String :=
  String.mk (subImagesGo s.data.length s.data)

/-- Recogniser for the `current_query_raw.startswith("[{")` branch of
`rephrase_query` (multimodal JSON-list inputs). -/
def isJsonListInput (raw : String) : Bool :=
  match raw.data with
  | '[' :: '\x7b' :: _ => true
  | _ => false

/-- The plain-text input cleaning of `rephrase_query`: strip inline base64
image markdown, then strip surrounding whitespace. -/
def clean_plain_input (raw : String) : String := pyStrip (subBase64Images raw)

/-- The first-turn branch of `rephrase_query` (`if not messages`): the
cleaned current query, or the placeholder `(hình ảnh)` when it is empty.
The JSON-list input branch (`input_text` beginning with a bracketed object,
parsed with `json.loads`) is outside the modelled fragment and yields
`none`; all theorems restrict to plain inputs. -/
def rephrase_first_turn (input_text : Option String) : Option String :=
  let raw := input_text.getD ""
  if isJsonListInput raw then none
  else
    let q := clean_plain_input raw
    some (if q = "" then "(hình ảnh)" else q)

/-- Outcome of one oracle attempt inside `GeminiService.generate_structured`:
a parsed value or an exception message. -/
inductive AttemptOut (T : Type) where
  | ok (t : T)
  | err (msg : String)

/-- The overload keywords of `generate_structured`. -/
def overloadKeywords : List String :=
  ["resource exhausted", "overload", "rate limit", "429", "503",
    "too many requests", "quota exceeded"]

/-- Python `pat in s` substring containment. -/
def strContains (s pat : String) : Bool :=
  (List.range (s.data.length + 1)).any (fun i => pat.data.isPrefixOf (s.data.drop i))

/-- The `is_overload` classification of `generate_structured`: some overload
keyword occurs in the lower-cased exception message. -/
def is_overload (msg : String) : Bool :=
  overloadKeywords.any (fun k => strContains (pyLower msg) k)

/-- The retry loop of `generate_structured`: at each attempt the oracle call
either returns a value or raises a message; overload-classified errors before
the final attempt sleep `retryDelay` seconds and retry, every other error is
re-raised immediately.  The second component records the sleeps performed;
the fuel equals the remaining loop iterations of `range(max_retries)`. -/
def retryGo {T : Type} (attempts : ℕ → AttemptOut T) (maxRetries retryDelay : ℕ) :
    ℕ → ℕ → Except String T × List ℕ
  | _, 0 => (.error "", [])
  | attempt, fuel + 1 =>
    match attempts attempt with
    | .ok t => (.ok t, [])
    | .err m =>
      if is_overload m ∧ attempt < maxRetries - 1 then
        let r := retryGo attempts maxRetries retryDelay (attempt + 1) fuel
        (r.1, retryDelay :: r.2)
      else (.error m, [])

/-- `GeminiService.generate_structured` with its source defaults
`max_retries = 3`, `retry_delay = 10`. -/
def generate_structured_run {T : Type} (attempts : ℕ → AttemptOut T) :
    Except String T × List ℕ :=
  retryGo attempts 3 10 0 3

/-- The pipeline-relevant fields of `AgentState`; `none` models a key absent
from the LangGraph state dictionary (never written by any executed node). -/
structure PState where
  rephrased_query : Option String
  is_chemistry_related : Option Bool
  error_message : Option String
  search_query : Option String
  is_valid : Option Bool
  needs_rag : Option Bool
  rag_context : Option (List Compound)
  final_response : Option FinalOut
  deriving DecidableEq

def initState : PState := ⟨none, none, none, none, none, none, none, none⟩

/-- `check_relevance_route` of `src/agent/nodes/conditional.py`:
`state.get("is_chemistry_related", False)` routes to extraction, else to the
terminal branch. -/
def check_relevance_route (st : PState) : String :=
  if st.is_chemistry_related.getD false then "extract" else "end"

/-- `check_validity_route` of `src/agent/nodes/conditional.py`:
`state.get("needs_rag", True)` routes to retrieval, else directly to
generation. -/
def check_validity_route (st : PState) : String :=
  if st.needs_rag.getD true then "retrieve" else "generate"

/-- The typed oracle replies consumed by the pipeline stages in one run
(`RephraseResponse`, `RelevanceResponse`, `ExtractionResponse` plus the
`needs_rag` flag the extraction node reads, and the `FinalResponse`). -/
structure StageOracles where
  rephrased_query : String
  is_chemistry_related : Bool
  relevance_error : Option String
  search_query : String
  is_valid : Bool
  extraction_error : Option String
  needs_rag : Bool
  final : Option FinalResponse

/-- The rephrase node: first-turn identity-style cleaning, otherwise the
oracle rewrite (`rephrase_query`). -/
def rephraseNode (o : StageOracles) (input_text : Option String) (hasHistory : Bool)
    (st : PState) : PState :=
  if hasHistory then { st with rephrased_query := some o.rephrased_query }
  else { st with rephrased_query := rephrase_first_turn input_text }

/-- The relevance node (`check_relevance` of `summarize_context.py`): stores
the oracle classification and the rejection message only when rejected. -/
def relevanceNode (o : StageOracles) (st : PState) : PState :=
  { st with
    is_chemistry_related := some o.is_chemistry_related,
    error_message := if o.is_chemistry_related then none else o.relevance_error }

/-- The extraction node (`extract_and_validate`): stores the normalized
search query, validity flag, error message and the lookup-need decision. -/
def extractNode (o : StageOracles) (st : PState) : PState :=
  { st with
    search_query := some o.search_query,
    is_valid := some o.is_valid,
    error_message := if o.is_valid then none else o.extraction_error,
    needs_rag := some o.needs_rag }

/-- The retrieval node (`retrieve_from_rag`): the only stage that invokes the
catalog lookup, on `state.get("search_query", "")`. -/
def retrieveNode (lookupFn : String → List Compound) (st : PState) : PState :=
  { st with rag_context := some (lookupFn (st.search_query.getD "")) }

/-- The generation node, reusing the embedded `generate_response`. -/
def generateNode (o : StageOracles) (st : PState) : PState :=
  { st with
    final_response := some (generate_response st.needs_rag (st.rag_context.getD []) o.final) }

/-- One stage of the pipeline, for recording the execution trace. -/
inductive Node where
  | rephrase
  | relevance
  | extract
  | retrieve
  | generate
  deriving DecidableEq

/-- Modelled from the spec: the LangGraph `StateGraph` wiring of the
pipeline (rephrase → relevance → conditional edge via
`check_relevance_route` to extraction or END → conditional edge via
`check_validity_route` to retrieval or directly to generation) is not
present under the source tree — only the node functions and the two routing
functions are — so the orchestration is modelled from spec §2 and §4.3.
The node transitions and both routing functions are embedded from the
sources.  Returns the final state and the trace of executed nodes;
`retrieveNode` is the only node that applies `lookupFn`. -/
def run_pipeline (o : StageOracles) (lookupFn : String → List Compound)
    (input_text : Option String) (hasHistory : Bool) : PState × List Node :=
  let s1 := rephraseNode o input_text hasHistory initState
  let s2 := relevanceNode o s1
  if check_relevance_route s2 = "extract" then
    let s3 := extractNode o s2
    if check_validity_route s3 = "retrieve" then
      let s4 := retrieveNode lookupFn s3
      let s5 := generateNode o s4
      (s5, [Node.rephrase, Node.relevance, Node.extract, Node.retrieve, Node.generate])
    else
      let s4 := generateNode o s3
      (s4, [Node.rephrase, Node.relevance, Node.extract, Node.generate])
  else
    (s2, [Node.rephrase, Node.relevance])

theorem mem_of_head? {α : Type} {l : List α} {a : α} (h : l.head? = some a) : a ∈ l := by
  cases l with
  | nil => simp at h
  | cons b t =>
    simp only [List.head?] at h
    obtain rfl : b = a := Option.some.inj h
    exact List.mem_cons_self b t

theorem sortDesc_nil_iff {α : Type} (l : List (α × ℚ)) : sortDesc l = [] ↔ l = [] := by
  constructor
  · intro h
    have := congrArg List.length h
    simp [sortDesc, List.length_insertionSort] at this
    exact this
  · intro h; subst h; rfl

theorem firstMax_eq_none_iff {α : Type} (l : List (α × ℚ)) :
    firstMax l = none ↔ l = [] := by
  cases l with
  | nil => simp [firstMax]
  | cons a l =>
    cases hfm : firstMax l with
    | none => simp [firstMax, hfm]
    | some b =>
      simp only [firstMax, hfm]
      split <;> simp

theorem head?_sortDesc {α : Type} (l : List (α × ℚ)) :
    (sortDesc l).head? = firstMax l := by
  induction l with
  | nil => rfl
  | cons a l ih =>
    show (List.orderedInsert scoreGE a (sortDesc l)).head? = firstMax (a :: l)
    rcases hs : sortDesc l with _ | ⟨b, t⟩
    · have hl : l = [] := (sortDesc_nil_iff l).mp hs
      subst hl
      simp [List.orderedInsert, firstMax]
    · have hb : firstMax l = some b := by rw [← ih, hs]; rfl
      by_cases hab : scoreGE a b
      · have : List.orderedInsert scoreGE a (b :: t) = a :: b :: t := by
          simp [List.orderedInsert, hab]
        rw [this]
        simp only [firstMax, hb, List.head?]
        have : ¬ a.2 < b.2 := not_lt.mpr hab
        simp [this]
      · have : List.orderedInsert scoreGE a (b :: t)
            = b :: List.orderedInsert scoreGE a t := by
          simp [List.orderedInsert, hab]
        rw [this]
        simp only [firstMax, hb, List.head?]
        have : a.2 < b.2 := lt_of_not_le hab
        simp [this]

theorem firstMax_decomp {α : Type} (l : List (α × ℚ)) (a : α × ℚ)
    (h : firstMax l = some a) :
    ∃ l1 l2, l = l1 ++ a :: l2 ∧ (∀ p ∈ l1, p.2 < a.2) ∧ (∀ p ∈ l2, p.2 ≤ a.2) := by
  induction l generalizing a with
  | nil => simp [firstMax] at h
  | cons b l ih =>
    rcases hm : firstMax l with _ | c
    · have hl : l = [] := (firstMax_eq_none_iff l).mp hm
      subst hl
      simp only [firstMax] at h
      obtain rfl : b = a := Option.some.inj h
      exact ⟨[], [], rfl, by simp, by simp⟩
    · simp only [firstMax, hm] at h
      by_cases hbc : b.2 < c.2
      · rw [if_pos hbc] at h
        have hh : c = a := Option.some.inj h
        rw [← hh]
        obtain ⟨l1, l2, hdec, hlt, hle⟩ := ih c hm
        refine ⟨b :: l1, l2, by rw [hdec]; rfl, ?_, hle⟩
        intro p hp
        rcases List.mem_cons.mp hp with hp | hp
        · subst hp; exact hbc
        · exact hlt p hp
      · rw [if_neg hbc] at h
        have hh : b = a := Option.some.inj h
        rw [← hh]
        obtain ⟨l1, l2, hdec, hlt, hle⟩ := ih c hm
        refine ⟨[], l, rfl, by simp, ?_⟩
        intro p hp
        have hcb : c.2 ≤ b.2 := not_lt.mp hbc
        rw [hdec] at hp
        rcases List.mem_append.mp hp with hp | hp
        · exact le_of_lt (lt_of_lt_of_le (hlt p hp) hcb)
        · rcases List.mem_cons.mp hp with hp | hp
          · subst hp; exact hcb
          · exact le_trans (hle p hp) hcb

theorem data_ne_nil_of_ne_empty {s : String} (h : s ≠ "") : s.data ≠ [] := by
  intro hd
  apply h
  cases s with
  | mk l =>
    simp only [String.data] at hd
    subst hd
    rfl

theorem foldl_max_le {hi : ℚ} {l : List ℚ} {a : ℚ}
    (ha : a ≤ hi) (hl : ∀ x ∈ l, x ≤ hi) : l.foldl max a ≤ hi := by
  induction l generalizing a with
  | nil => exact ha
  | cons b t ih =>
    simp only [List.foldl]
    exact ih (max_le ha (hl b (List.mem_cons_self b t)))
      (fun x hx => hl x (List.mem_cons_of_mem b hx))

theorem pyMax_le {hi d : ℚ} {l : List ℚ}
    (hd : d ≤ hi) (hl : ∀ x ∈ l, x ≤ hi) : pyMax d l ≤ hi := by
  cases l with
  | nil => exact hd
  | cons a t =>
    exact foldl_max_le (hl a (List.mem_cons_self a t))
      (fun x hx => hl x (List.mem_cons_of_mem a hx))

/-- Claim C3 counterexample: on an input key whose stripped form is empty, the
classification does not fall back to a name query (it fails with an
`IndexError`, modelled as `none`), so the stated classification is not total
over all input keys. -/
theorem search_classification_empty_counterexample :
    isFormulaQuery "" = none ∧ ¬ isFormulaQuery "" = some false := by
  exact ⟨by decide, by decide⟩

/-- Claim C3 (amended to keys with a non-empty stripped form): the lookup
classifies the key as a formula/symbol query exactly when the stripped key
contains a digit and no hyphen, or has length at most 2 with an uppercase
first character; every other such key is a name query. -/
theorem search_classification (query : String) (h : pyStrip query ≠ "") :
    ∃ b, isFormulaQuery query = some b ∧
      (b = true ↔
        ((∃ ch ∈ (pyStrip query).data, ch.isDigit) ∧ '-' ∉ (pyStrip query).data) ∨
        ((pyStrip query).data.length ≤ 2 ∧
          ∃ c0 l, (pyStrip query).data = c0 :: l ∧ c0.isUpper)) := by
  have hd : (pyStrip query).data ≠ [] := data_ne_nil_of_ne_empty h
  cases hdata : (pyStrip query).data with
  | nil => exact absurd hdata hd
  | cons c0 l =>
    refine ⟨_, by simp only [isFormulaQuery]; rw [hdata]; rfl, ?_⟩
    simp only [Bool.or_eq_true, Bool.and_eq_true, Bool.not_eq_true',
      List.any_eq_true, decide_eq_true_iff, decide_eq_false_iff_not]
    constructor
    · rintro (⟨⟨ch, hch, hdig⟩, hhyp⟩ | ⟨hlen, hup⟩)
      · exact Or.inl ⟨⟨ch, hch, hdig⟩, hhyp⟩
      · exact Or.inr ⟨hlen, c0, l, rfl, hup⟩
    · rintro (⟨⟨ch, hch, hdig⟩, hhyp⟩ | ⟨hlen, c1, l1, hdl, hup⟩)
      · exact Or.inl ⟨⟨ch, hch, hdig⟩, hhyp⟩
      · refine Or.inr ⟨hlen, ?_⟩
        injection hdl with h1 h2
        subst h1
        exact hup

theorem search_classification_witness :
    pyStrip "CH4" ≠ "" ∧
    ∃ b, isFormulaQuery "CH4" = some b ∧
      (b = true ↔
        ((∃ ch ∈ (pyStrip "CH4").data, ch.isDigit) ∧ '-' ∉ (pyStrip "CH4").data) ∨
        ((pyStrip "CH4").data.length ≤ 2 ∧
          ∃ c0 l, (pyStrip "CH4").data = c0 :: l ∧ c0.isUpper)) :=
  ⟨by decide, search_classification "CH4" (by decide)⟩

/-- Claim C9: on a key that is empty or whitespace-only, `search_compound`
raises an uncaught `IndexError` (the symbol check indexes the first character
of the stripped key) whenever the catalog is non-empty, instead of returning a
no-match signal. -/
theorem search_empty_key_index_error (ratio : String → String → ℚ) (query : String)
    (cat : List Compound) (hq : pyStrip query = "") (hcat : cat ≠ []) :
    search_compound ratio query cat = .indexError := by
  have hdata : (pyStrip query).data = [] := by rw [hq]
  simp [search_compound, isFormulaQuery, hdata, hcat]

theorem search_compound_reduce (ratio : String → String → ℚ) (query : String)
    (cat : List Compound) (b : Bool) (hcat : cat ≠ [])
    (h : isFormulaQuery query = some b) :
    search_compound ratio query cat =
      (match (sortDesc (matchList ratio query cat b)).head? with
        | none => SearchOutcome.noMatch query
        | some best => SearchOutcome.found best.1) := by
  simp only [search_compound, if_neg hcat, h]

/-- Claim C2: on a formula/symbol query the lookup matches only by exact
case-insensitive equality of the key against the formula or molecular-formula
field, the score is fixed at 1.0, and the result never depends on the fuzzy
ratio function; in particular the key CH4 finds no match in a catalog whose
only record has formula C2H4 even when the ratio function scores every name
pair at 100. -/
theorem search_formula_exact_match (ratio ratio2 : String → String → ℚ)
    (query : String) (cat : List Compound) (h : isFormulaQuery query = some true) :
    search_compound ratio query cat = search_compound ratio2 query cat ∧
    (∀ c, search_compound ratio query cat = .found c →
      pyStrip (pyUpper query) = pyUpper c.formula ∨
      pyStrip (pyUpper query) = pyUpper c.molecular_formula) ∧
    (∀ p ∈ matchList ratio query cat true, p.2 = 1) ∧
    search_compound (fun _ _ => 100) "CH4"
      [⟨"ethene", "Ethene", "C2H4", "C2H4", ["methane"], none, none⟩]
      = .noMatch "CH4" := by
  refine ⟨?_, ?_, ?_, by decide⟩
  · by_cases hcat : cat = []
    · subst hcat; simp [search_compound]
    · rw [search_compound_reduce ratio query cat true hcat h,
        search_compound_reduce ratio2 query cat true hcat h]
      rfl
  · intro c hc
    by_cases hcat : cat = []
    · subst hcat; simp [search_compound] at hc
    · rw [search_compound_reduce ratio query cat true hcat h] at hc
      cases hh : (sortDesc (matchList ratio query cat true)).head? with
      | none => rw [hh] at hc; simp at hc
      | some best =>
        rw [hh] at hc
        have hmem : best ∈ matchList ratio query cat true :=
          (List.Perm.mem_iff (List.perm_insertionSort scoreGE _)).mp (mem_of_head? hh)
        simp only [matchList] at hmem
        obtain ⟨c1, hc1, heq⟩ := List.mem_map.mp hmem
        obtain ⟨hcin, hfm⟩ := List.mem_filter.mp hc1
        have hb : best.1 = c := by
          injection hc with h1
        have hcc : c1 = c := by rw [← hb, ← heq]
        subst hcc
        simp only [formulaMatches, Bool.or_eq_true, decide_eq_true_iff] at hfm
        exact hfm
  · intro p hp
    simp only [matchList] at hp
    obtain ⟨c1, _, heq⟩ := List.mem_map.mp hp
    rw [← heq]

theorem search_formula_exact_match_witness :
    isFormulaQuery "H2O" = some true ∧
    (search_compound (fun _ _ => 0) "H2O" [⟨"water", "Water", "H2O", "H2O", [], none, none⟩]
        = search_compound (fun _ _ => 50) "H2O"
            [⟨"water", "Water", "H2O", "H2O", [], none, none⟩] ∧
      (∀ c, search_compound (fun _ _ => 0) "H2O"
            [⟨"water", "Water", "H2O", "H2O", [], none, none⟩] = .found c →
        pyStrip (pyUpper "H2O") = pyUpper c.formula ∨
        pyStrip (pyUpper "H2O") = pyUpper c.molecular_formula) ∧
      (∀ p ∈ matchList (fun _ _ => 0) "H2O"
          [⟨"water", "Water", "H2O", "H2O", [], none, none⟩] true, p.2 = 1) ∧
      search_compound (fun _ _ => 100) "CH4"
        [⟨"ethene", "Ethene", "C2H4", "C2H4", ["methane"], none, none⟩]
        = .noMatch "CH4") :=
  ⟨by decide, search_formula_exact_match (fun _ _ => 0) (fun _ _ => 50) "H2O" _ (by decide)⟩

/-- Claim C4: on a name query every record is scored by the maximum of the
fuzzy ratio against the canonical name and each common name; only records
scoring at least 0.7 enter the match list, the returned record (if any)
passed the threshold, the outcome is always an explicit no-match signal or a
single record (never an exception), the no-match signal occurs exactly when
every record scores below 0.7, and all scores lie in [0, 1] whenever the
ratio function lands in [0, 100]. -/
theorem search_name_fuzzy_threshold (ratio : String → String → ℚ) (query : String)
    (cat : List Compound) (h : isFormulaQuery query = some false) (hcat : cat ≠ [])
    (hr : ∀ a b, 0 ≤ ratio a b ∧ ratio a b ≤ 100) :
    (search_compound ratio query cat = .noMatch query ↔
      ∀ c ∈ cat, maxScore ratio (pyStrip (pyLower query)) c < 7/10) ∧
    (∀ c, search_compound ratio query cat = .found c →
      7/10 ≤ maxScore ratio (pyStrip (pyLower query)) c) ∧
    (search_compound ratio query cat = .noMatch query ∨
      ∃ c, search_compound ratio query cat = .found c) ∧
    (∀ c ∈ cat, 0 ≤ maxScore ratio (pyStrip (pyLower query)) c ∧
      maxScore ratio (pyStrip (pyLower query)) c ≤ 1) := by
  have hred := search_compound_reduce ratio query cat false hcat h
  have hnil : search_compound ratio query cat = .noMatch query ↔
      matchList ratio query cat false = [] := by
    rw [hred]
    cases hh : (sortDesc (matchList ratio query cat false)).head? with
    | none =>
      simp only [hh]
      rw [List.head?_eq_none_iff] at hh
      rw [sortDesc_nil_iff] at hh
      simp [hh]
    | some best =>
      simp only [hh]
      constructor
      · intro hfound; exact absurd hfound (by simp)
      · intro hempty
        rw [hempty] at hh
        simp [sortDesc] at hh
  refine ⟨?_, ?_, ?_, ?_⟩
  · rw [hnil]
    simp only [matchList, List.filterMap_eq_nil_iff]
    constructor
    · intro hall c hcin
      have := hall c hcin
      by_cases hms : (7 : ℚ)/10 ≤ maxScore ratio (pyStrip (pyLower query)) c
      · rw [if_pos hms] at this; exact absurd this (by simp)
      · exact lt_of_not_le hms
    · intro hall c hcin
      rw [if_neg (not_le.mpr (hall c hcin))]
  · intro c hc
    rw [hred] at hc
    cases hh : (sortDesc (matchList ratio query cat false)).head? with
    | none => rw [hh] at hc; simp at hc
    | some best =>
      rw [hh] at hc
      have hb : best.1 = c := by injection hc with h1
      have hmem : best ∈ matchList ratio query cat false :=
        (List.Perm.mem_iff (List.perm_insertionSort scoreGE _)).mp (mem_of_head? hh)
      simp only [matchList] at hmem
      obtain ⟨c1, hcin, hf⟩ := List.mem_filterMap.mp hmem
      by_cases hms : (7 : ℚ)/10 ≤ maxScore ratio (pyStrip (pyLower query)) c1
      · rw [if_pos hms] at hf
        have : c1 = c := by rw [← hb, ← Option.some.inj hf]
        rw [← this]
        exact hms
      · rw [if_neg hms] at hf
        exact absurd hf (by simp)
  · rw [hred]
    cases hh : (sortDesc (matchList ratio query cat false)).head? with
    | none => simp [hh]
    | some best => simp [hh]
  · intro c _
    constructor
    · refine le_trans ?_ (le_max_left _ _)
      exact div_nonneg (hr _ _).1 (by norm_num)
    · refine max_le ?_ ?_
      · rw [nameScore, div_le_one (by norm_num : (0:ℚ) < 100)]
        exact (hr _ _).2
      · refine pyMax_le (by norm_num) ?_
        intro x hx
        obtain ⟨n, _, hn⟩ := List.mem_map.mp hx
        rw [← hn, div_le_one (by norm_num : (0:ℚ) < 100)]
        exact (hr _ _).2

theorem search_name_fuzzy_threshold_witness :
    isFormulaQuery "ethanol" = some false ∧
    ([⟨"ethanol", "Ethanol", "C2H5OH", "C2H6O", ["alcohol"], none, none⟩] : List Compound) ≠ [] ∧
    ((search_compound (fun _ _ => 80) "ethanol"
          [⟨"ethanol", "Ethanol", "C2H5OH", "C2H6O", ["alcohol"], none, none⟩]
        = .noMatch "ethanol" ↔
        ∀ c ∈ ([⟨"ethanol", "Ethanol", "C2H5OH", "C2H6O", ["alcohol"], none, none⟩] : List Compound),
          maxScore (fun _ _ => 80) (pyStrip (pyLower "ethanol")) c < 7/10) ∧
      (∀ c, search_compound (fun _ _ => 80) "ethanol"
            [⟨"ethanol", "Ethanol", "C2H5OH", "C2H6O", ["alcohol"], none, none⟩] = .found c →
        7/10 ≤ maxScore (fun _ _ => 80) (pyStrip (pyLower "ethanol")) c) ∧
      (search_compound (fun _ _ => 80) "ethanol"
          [⟨"ethanol", "Ethanol", "C2H5OH", "C2H6O", ["alcohol"], none, none⟩]
          = .noMatch "ethanol" ∨
        ∃ c, search_compound (fun _ _ => 80) "ethanol"
            [⟨"ethanol", "Ethanol", "C2H5OH", "C2H6O", ["alcohol"], none, none⟩] = .found c) ∧
      (∀ c ∈ ([⟨"ethanol", "Ethanol", "C2H5OH", "C2H6O", ["alcohol"], none, none⟩] : List Compound),
        0 ≤ maxScore (fun _ _ => 80) (pyStrip (pyLower "ethanol")) c ∧
        maxScore (fun _ _ => 80) (pyStrip (pyLower "ethanol")) c ≤ 1)) :=
  ⟨by decide, by decide,
    search_name_fuzzy_threshold (fun _ _ => 80) "ethanol" _ (by decide) (by decide)
      (fun a b => by norm_num)⟩

/-- Claim C10: whenever the lookup succeeds it returns exactly one record:
the match list (built in catalog order) decomposes around the returned
record so that every earlier entry scores strictly less and every later
entry scores at most as much — the stable descending sort puts the first
highest-scoring match on top — and the score component is stripped from the
returned record. -/
theorem search_top_result_first_max (ratio : String → String → ℚ) (query : String)
    (cat : List Compound) (c : Compound)
    (h : search_compound ratio query cat = .found c) :
    ∃ b s l1 l2, isFormulaQuery query = some b ∧
      matchList ratio query cat b = l1 ++ (c, s) :: l2 ∧
      (∀ p ∈ l1, p.2 < s) ∧ (∀ p ∈ l2, p.2 ≤ s) := by
  by_cases hcat : cat = []
  · subst hcat; simp [search_compound] at h
  cases hf : isFormulaQuery query with
  | none =>
    simp only [search_compound, if_neg hcat, hf] at h
    exact SearchOutcome.noConfusion h
  | some b =>
    rw [search_compound_reduce ratio query cat b hcat hf] at h
    cases hh : (sortDesc (matchList ratio query cat b)).head? with
    | none => rw [hh] at h; simp at h
    | some best =>
      rw [hh] at h
      have hb : best.1 = c := by injection h with h1
      rw [head?_sortDesc] at hh
      obtain ⟨l1, l2, hdec, hlt, hle⟩ := firstMax_decomp _ best hh
      refine ⟨b, best.2, l1, l2, rfl, ?_, hlt, hle⟩
      have hpair : (c, best.2) = best := by rw [← hb]
      rw [hpair]
      exact hdec

theorem search_top_result_first_max_witness :
    search_compound (fun _ _ => 0) "H2O" [⟨"water", "Water", "H2O", "H2O", [], none, none⟩]
      = .found ⟨"water", "Water", "H2O", "H2O", [], none, none⟩ ∧
    ∃ b s l1 l2, isFormulaQuery "H2O" = some b ∧
      matchList (fun _ _ => 0) "H2O" [⟨"water", "Water", "H2O", "H2O", [], none, none⟩] b
        = l1 ++ (⟨"water", "Water", "H2O", "H2O", [], none, none⟩, s) :: l2 ∧
      (∀ p ∈ l1, p.2 < s) ∧ (∀ p ∈ l2, p.2 ≤ s) :=
  ⟨by decide,
    search_top_result_first_max (fun _ _ => 0) "H2O" _ _ (by decide)⟩

theorem search_empty_key_index_error_witness :
    pyStrip "  " = "" ∧
    ([⟨"water", "Water", "H2O", "H2O", [], none, none⟩] : List Compound) ≠ [] ∧
    search_compound (fun _ _ => 0) "  " [⟨"water", "Water", "H2O", "H2O", [], none, none⟩]
      = .indexError :=
  ⟨by decide, by decide,
    search_empty_key_index_error (fun _ _ => 0) "  " _ (by decide) (by decide)⟩

theorem pickMedia_spec (resp : FinalResponse) (rag : List Compound) :
    ((pickMedia resp rag).1 ≠ none →
      ∃ sid d, resp.selected_doc_id = some sid ∧ sid ≠ "" ∧
        resp.should_return_image = true ∧
        rag.find? (fun x => decide (x.doc_id = sid)) = some d ∧
        truthyOpt d.image_path = true ∧ (pickMedia resp rag).1 = d.image_path) ∧
    ((pickMedia resp rag).2 ≠ none →
      ∃ sid d, resp.selected_doc_id = some sid ∧ sid ≠ "" ∧
        resp.should_return_audio = true ∧
        rag.find? (fun x => decide (x.doc_id = sid)) = some d ∧
        truthyOpt d.audio_path = true ∧ (pickMedia resp rag).2 = d.audio_path) := by
  rcases hsel : resp.selected_doc_id with _ | sid
  · constructor <;> intro h <;> simp [pickMedia, hsel] at h
  by_cases hsid : sid = ""
  · constructor <;> intro h <;> simp [pickMedia, hsel, hsid] at h
  by_cases hrag : rag = []
  · constructor <;> intro h <;> simp [pickMedia, hsel, hsid, hrag] at h
  rcases hfind : rag.find? (fun d => decide (d.doc_id = sid)) with _ | d
  · constructor <;> intro h <;> simp [pickMedia, hsel, hsid, hrag, hfind] at h
  have hpick : pickMedia resp rag =
      ((if resp.should_return_image && truthyOpt d.image_path then d.image_path else none),
       (if resp.should_return_audio && truthyOpt d.audio_path then d.audio_path else none)) := by
    simp [pickMedia, hsel, hsid, hrag, hfind]
  constructor
  · intro himg
    rw [hpick] at himg ⊢
    by_cases hcond : (resp.should_return_image && truthyOpt d.image_path) = true
    · have h12 := hcond
      rw [Bool.and_eq_true] at h12
      obtain ⟨h1, h2⟩ := h12
      exact ⟨sid, d, rfl, hsid, h1, hfind, h2, by simp only []; rw [if_pos hcond]⟩
    · exact absurd (by simp only []; rw [if_neg hcond] : _ = none) himg
  · intro haud
    rw [hpick] at haud ⊢
    by_cases hcond : (resp.should_return_audio && truthyOpt d.audio_path) = true
    · have h12 := hcond
      rw [Bool.and_eq_true] at h12
      obtain ⟨h1, h2⟩ := h12
      exact ⟨sid, d, rfl, hsid, h1, hfind, h2, by simp only []; rw [if_pos hcond]⟩
    · exact absurd (by simp only []; rw [if_neg hcond] : _ = none) haud

/-- Claim C1: the media fields of the final response can be non-null only if
the oracle selected a (truthy) record id, that record is found in the RAG
context, and it actually exposes the media kind (a non-empty stored path);
on the direct-knowledge path (`needs_rag = false`) both media fields are
forced to null regardless of what the oracle requested. -/
theorem generate_media_invariant (needs_rag : Option Bool) (rag : List Compound)
    (oracle : Option FinalResponse) :
    ((generate_response needs_rag rag oracle).image_path ≠ none →
      ∃ resp sid d, oracle = some resp ∧ resp.selected_doc_id = some sid ∧ sid ≠ "" ∧
        resp.should_return_image = true ∧
        rag.find? (fun x => decide (x.doc_id = sid)) = some d ∧
        truthyOpt d.image_path = true ∧
        (generate_response needs_rag rag oracle).image_path = d.image_path) ∧
    ((generate_response needs_rag rag oracle).audio_path ≠ none →
      ∃ resp sid d, oracle = some resp ∧ resp.selected_doc_id = some sid ∧ sid ≠ "" ∧
        resp.should_return_audio = true ∧
        rag.find? (fun x => decide (x.doc_id = sid)) = some d ∧
        truthyOpt d.audio_path = true ∧
        (generate_response needs_rag rag oracle).audio_path = d.audio_path) ∧
    (needs_rag = some false →
      (generate_response needs_rag rag oracle).image_path = none ∧
      (generate_response needs_rag rag oracle).audio_path = none) := by
  cases hb : needs_rag.getD true with
  | false =>
    have hgen : generate_response needs_rag rag oracle = generate_direct_response oracle := by
      simp [generate_response, hb]
    have himg0 : (generate_response needs_rag rag oracle).image_path = none := by
      rw [hgen]; cases oracle <;> rfl
    have haud0 : (generate_response needs_rag rag oracle).audio_path = none := by
      rw [hgen]; cases oracle <;> rfl
    exact ⟨fun h => absurd himg0 h, fun h => absurd haud0 h, fun _ => ⟨himg0, haud0⟩⟩
  | true =>
    have hthird : needs_rag = some false →
        (generate_response needs_rag rag oracle).image_path = none ∧
        (generate_response needs_rag rag oracle).audio_path = none := by
      intro hf
      rw [hf] at hb
      simp [Option.getD] at hb
    rcases oracle with _ | resp
    · have himg0 : (generate_response needs_rag rag none).image_path = none := by
        simp [generate_response, hb]
      have haud0 : (generate_response needs_rag rag none).audio_path = none := by
        simp [generate_response, hb]
      exact ⟨fun h => absurd himg0 h, fun h => absurd haud0 h, hthird⟩
    · have hgen : generate_response needs_rag rag (some resp)
          = ⟨resp.text_response, (pickMedia resp rag).1, (pickMedia resp rag).2⟩ := by
        simp [generate_response, hb]
      obtain ⟨hi, ha⟩ := pickMedia_spec resp rag
      refine ⟨?_, ?_, hthird⟩
      · intro himg
        rw [hgen] at himg
        obtain ⟨sid, d, h1, h2, h3, h4, h5, h6⟩ := hi himg
        exact ⟨resp, sid, d, rfl, h1, h2, h3, h4, h5, by rw [hgen]; exact h6⟩
      · intro haud
        rw [hgen] at haud
        obtain ⟨sid, d, h1, h2, h3, h4, h5, h6⟩ := ha haud
        exact ⟨resp, sid, d, rfl, h1, h2, h3, h4, h5, by rw [hgen]; exact h6⟩

theorem generate_media_invariant_witness :
    ((generate_response (some true)
        [⟨"water", "Water", "H2O", "H2O", [], some "img/water.png", some "aud/water.mp3"⟩]
        (some ⟨"ans", some "water", true, false⟩)).image_path ≠ none →
      ∃ resp sid d, (some ⟨"ans", some "water", true, false⟩ : Option FinalResponse) = some resp ∧
        resp.selected_doc_id = some sid ∧ sid ≠ "" ∧
        resp.should_return_image = true ∧
        ([⟨"water", "Water", "H2O", "H2O", [], some "img/water.png", some "aud/water.mp3"⟩]
            : List Compound).find? (fun x => decide (x.doc_id = sid)) = some d ∧
        truthyOpt d.image_path = true ∧
        (generate_response (some true)
          [⟨"water", "Water", "H2O", "H2O", [], some "img/water.png", some "aud/water.mp3"⟩]
          (some ⟨"ans", some "water", true, false⟩)).image_path = d.image_path) ∧
    ((generate_response (some true)
        [⟨"water", "Water", "H2O", "H2O", [], some "img/water.png", some "aud/water.mp3"⟩]
        (some ⟨"ans", some "water", true, false⟩)).audio_path ≠ none →
      ∃ resp sid d, (some ⟨"ans", some "water", true, false⟩ : Option FinalResponse) = some resp ∧
        resp.selected_doc_id = some sid ∧ sid ≠ "" ∧
        resp.should_return_audio = true ∧
        ([⟨"water", "Water", "H2O", "H2O", [], some "img/water.png", some "aud/water.mp3"⟩]
            : List Compound).find? (fun x => decide (x.doc_id = sid)) = some d ∧
        truthyOpt d.audio_path = true ∧
        (generate_response (some true)
          [⟨"water", "Water", "H2O", "H2O", [], some "img/water.png", some "aud/water.mp3"⟩]
          (some ⟨"ans", some "water", true, false⟩)).audio_path = d.audio_path) ∧
    ((some true : Option Bool) = some false →
      (generate_response (some true)
        [⟨"water", "Water", "H2O", "H2O", [], some "img/water.png", some "aud/water.mp3"⟩]
        (some ⟨"ans", some "water", true, false⟩)).image_path = none ∧
      (generate_response (some true)
        [⟨"water", "Water", "H2O", "H2O", [], some "img/water.png", some "aud/water.mp3"⟩]
        (some ⟨"ans", some "water", true, false⟩)).audio_path = none) :=
  generate_media_invariant (some true)
    [⟨"water", "Water", "H2O", "H2O", [], some "img/water.png", some "aud/water.mp3"⟩]
    (some ⟨"ans", some "water", true, false⟩)

/-- Claim C5: the hybrid ranked lookup fuses a dense and a sparse ranking
(each prefetching 10 candidates) by Reciprocal Rank Fusion, and the returned
sequence contains only candidates with fused score at least the threshold,
sorted by fused score descending, with at most `lim` entries; as a pure
function of the rankings it returns identical results on repeated calls. -/
theorem hybrid_search_spec {α : Type} [DecidableEq α] (dense sparse : List α)
    (lim : ℕ) (threshold : ℚ) :
    (∀ p ∈ hybrid_search dense sparse lim threshold, threshold ≤ p.2) ∧
    (hybrid_search dense sparse lim threshold).length ≤ lim ∧
    List.Sorted scoreGE (hybrid_search dense sparse lim threshold) ∧
    hybrid_search dense sparse lim threshold = hybrid_search dense sparse lim threshold := by
  have hunfold : hybrid_search dense sparse lim threshold
      = ((sortDesc ((dedupFirst (dense.take 10 ++ sparse.take 10)).map
            (fun c => (c, rrfScore [dense.take 10, sparse.take 10] c)))).take lim).filter
          (fun p => decide (threshold ≤ p.2)) := rfl
  refine ⟨?_, ?_, ?_, rfl⟩
  · intro p hp
    rw [hunfold] at hp
    exact of_decide_eq_true (List.mem_filter.mp hp).2
  · rw [hunfold]
    refine le_trans (List.length_filter_le _ _) ?_
    rw [List.length_take]
    exact min_le_left _ _
  · rw [hunfold]
    have hs : List.Sorted scoreGE (sortDesc ((dedupFirst (dense.take 10 ++ sparse.take 10)).map
        (fun c => (c, rrfScore [dense.take 10, sparse.take 10] c)))) :=
      List.sorted_insertionSort scoreGE _
    have hsub : List.Sublist
        (((sortDesc ((dedupFirst (dense.take 10 ++ sparse.take 10)).map
            (fun c => (c, rrfScore [dense.take 10, sparse.take 10] c)))).take lim).filter
              (fun p => decide (threshold ≤ p.2)))
        (sortDesc ((dedupFirst (dense.take 10 ++ sparse.take 10)).map
            (fun c => (c, rrfScore [dense.take 10, sparse.take 10] c)))) :=
      (List.filter_sublist _).trans (List.take_sublist _ _)
    exact List.Pairwise.sublist hsub hs

theorem hybrid_search_spec_witness :
    (∀ p ∈ hybrid_search [1, 2, 3] [2, 4] 2 (0 : ℚ), (0 : ℚ) ≤ p.2) ∧
    (hybrid_search [1, 2, 3] [2, 4] 2 (0 : ℚ)).length ≤ 2 ∧
    List.Sorted scoreGE (hybrid_search [1, 2, 3] [2, 4] 2 (0 : ℚ)) ∧
    hybrid_search [1, 2, 3] [2, 4] 2 (0 : ℚ) = hybrid_search [1, 2, 3] [2, 4] 2 (0 : ℚ) :=
  hybrid_search_spec [1, 2, 3] [2, 4] 2 0

theorem subImagesGo_no_bang (fuel : ℕ) : ∀ (cs : List Char), '!' ∉ cs → subImagesGo fuel cs = cs := by
  induction fuel with
  | zero => intro cs _; rfl
  | succ n ih =>
    intro cs h
    cases cs with
    | nil => rfl
    | cons c rest =>
      have hc : ¬ c = '!' := fun hcc => h (hcc ▸ List.mem_cons_self c rest)
      have hrest : '!' ∉ rest := fun hm => h (List.mem_cons_of_mem c hm)
      simp only [subImagesGo, if_neg hc]
      rw [ih rest hrest]

/-- Claim C7 counterexample: first-turn query resolution is not the identity —
the source cleans the raw text (stripping whitespace and image markdown), so
a raw text with surrounding spaces resolves to its stripped form. -/
theorem rephrase_identity_counterexample :
    rephrase_first_turn (some " Ethanol ") ≠ some " Ethanol " ∧
    rephrase_first_turn (some " Ethanol ") = some "Ethanol" := by
  constructor <;> decide

/-- Claim C7 (amended): on the first turn with a plain text input (not the
JSON-list form, no embedded image markdown), the resolved query is the
whitespace-stripped raw text, or the fixed placeholder when that is empty;
consequently the resolved query is never the empty string. -/
theorem rephrase_first_turn_cleaned (raw : String)
    (hjson : isJsonListInput raw = false) (hbang : '!' ∉ raw.data) :
    rephrase_first_turn (some raw)
      = some (if pyStrip raw = "" then "(hình ảnh)" else pyStrip raw) ∧
    ∀ q, rephrase_first_turn (some raw) = some q → q ≠ "" := by
  have hq : clean_plain_input raw = pyStrip raw := by
    unfold clean_plain_input subBase64Images
    rw [subImagesGo_no_bang raw.data.length raw.data hbang]
  have hmain : rephrase_first_turn (some raw)
      = some (if pyStrip raw = "" then "(hình ảnh)" else pyStrip raw) := by
    simp only [rephrase_first_turn, Option.getD]
    rw [if_neg (by simp [hjson])]
    rw [hq]
  refine ⟨hmain, ?_⟩
  intro q hqe
  rw [hmain] at hqe
  have hqq := Option.some.inj hqe
  by_cases hempty : pyStrip raw = ""
  · rw [if_pos hempty] at hqq
    rw [← hqq]
    decide
  · rw [if_neg hempty] at hqq
    rw [← hqq]
    exact hempty

theorem rephrase_first_turn_cleaned_witness :
    isJsonListInput "Methane" = false ∧ '!' ∉ "Methane".data ∧
    (rephrase_first_turn (some "Methane")
        = some (if pyStrip "Methane" = "" then "(hình ảnh)" else pyStrip "Methane") ∧
      ∀ q, rephrase_first_turn (some "Methane") = some q → q ≠ "") :=
  ⟨by decide, by decide, rephrase_first_turn_cleaned "Methane" (by decide) (by decide)⟩

theorem retry_delays_cases {T : Type} (attempts : ℕ → AttemptOut T) :
    (generate_structured_run attempts).2 = [] ∨
    (generate_structured_run attempts).2 = [10] ∨
    (generate_structured_run attempts).2 = [10, 10] := by
  unfold generate_structured_run
  cases h0 : attempts 0 with
  | ok t => simp [retryGo, h0]
  | err m0 =>
    by_cases ho0 : is_overload m0 = true
    · cases h1 : attempts 1 with
      | ok t => simp [retryGo, h0, h1, ho0]
      | err m1 =>
        by_cases ho1 : is_overload m1 = true
        · cases h2 : attempts 2 with
          | ok t => simp [retryGo, h0, h1, h2, ho0, ho1]
          | err m2 => simp [retryGo, h0, h1, h2, ho0, ho1]
        · simp [retryGo, h0, h1, ho0, ho1]
    · simp [retryGo, h0, ho0]

/-- Claim C8 (amended): oracle calls retry only on overload/rate-limit
error messages, up to 3 attempts, with a fixed 10-second delay between
attempts (constant, not exponential); any other error propagates immediately
without a retry, and after the final attempt the error is raised rather than
swallowed. -/
theorem gemini_retry_policy {T : Type} (attempts : ℕ → AttemptOut T) :
    (∀ t, attempts 0 = .ok t → generate_structured_run attempts = (.ok t, [])) ∧
    (∀ m, attempts 0 = .err m → is_overload m = false →
      generate_structured_run attempts = (.error m, [])) ∧
    (∀ m, (∀ i, i < 3 → attempts i = .err m) → is_overload m = true →
      generate_structured_run attempts = (.error m, [10, 10])) ∧
    (∀ d ∈ (generate_structured_run attempts).2, d = 10) ∧
    (generate_structured_run attempts).2.length ≤ 2 := by
  refine ⟨?_, ?_, ?_, ?_, ?_⟩
  · intro t h0
    simp [generate_structured_run, retryGo, h0]
  · intro m h0 hov
    simp [generate_structured_run, retryGo, h0, hov]
  · intro m hall hov
    have h0 := hall 0 (by norm_num)
    have h1 := hall 1 (by norm_num)
    have h2 := hall 2 (by norm_num)
    simp [generate_structured_run, retryGo, h0, h1, h2, hov]
  · intro d hd
    rcases retry_delays_cases attempts with h | h | h <;> rw [h] at hd <;> simp_all
  · rcases retry_delays_cases attempts with h | h | h <;> rw [h] <;> simp

theorem gemini_retry_policy_witness :
    generate_structured_run ((fun _ => AttemptOut.err "invalid api key") : ℕ → AttemptOut Unit)
      = (.error "invalid api key", []) :=
  (gemini_retry_policy ((fun _ => AttemptOut.err "invalid api key") : ℕ → AttemptOut Unit)).2.1
    "invalid api key" rfl (by decide)

/-- Claim C8 counterexample: the backoff between retries is constant — on a
run where every attempt fails with an overload-class error, the sleep
sequence is 10, 10 (the fixed `retry_delay`), not an exponentially growing
one (the delays do not even strictly increase). -/
theorem gemini_backoff_not_exponential :
    (generate_structured_run
        ((fun _ => AttemptOut.err "503 service unavailable") : ℕ → AttemptOut Unit)).2
      = [10, 10] ∧
    ¬ List.Chain' (fun a b => a < b)
      (generate_structured_run
        ((fun _ => AttemptOut.err "503 service unavailable") : ℕ → AttemptOut Unit)).2 := by
  have h : (generate_structured_run
      ((fun _ => AttemptOut.err "503 service unavailable") : ℕ → AttemptOut Unit)).2
      = [10, 10] := by decide
  refine ⟨h, ?_⟩
  rw [h]
  simp [List.chain'_cons]

/-- Claim C6: when the relevance gate classifies the turn as not
chemistry-related, the routing function returns the terminal branch and the
pipeline short-circuits — neither the extraction nor the retrieval node runs
(so the catalog lookup is never invoked, retrieval being the only node that
calls it), and the turn's lookup fields (`search_query`, `needs_rag`,
`rag_context`) remain unset. -/
theorem relevance_gate_short_circuit (o : StageOracles)
    (lookupFn : String → List Compound) (input_text : Option String)
    (hasHistory : Bool) (h : o.is_chemistry_related = false) :
    check_relevance_route (relevanceNode o (rephraseNode o input_text hasHistory initState))
      = "end" ∧
    (run_pipeline o lookupFn input_text hasHistory).2 = [Node.rephrase, Node.relevance] ∧
    Node.extract ∉ (run_pipeline o lookupFn input_text hasHistory).2 ∧
    Node.retrieve ∉ (run_pipeline o lookupFn input_text hasHistory).2 ∧
    (run_pipeline o lookupFn input_text hasHistory).1.search_query = none ∧
    (run_pipeline o lookupFn input_text hasHistory).1.needs_rag = none ∧
    (run_pipeline o lookupFn input_text hasHistory).1.rag_context = none := by
  have hroute : check_relevance_route
      (relevanceNode o (rephraseNode o input_text hasHistory initState)) = "end" := by
    simp [check_relevance_route, relevanceNode, h]
  have hrun : run_pipeline o lookupFn input_text hasHistory
      = (relevanceNode o (rephraseNode o input_text hasHistory initState),
         [Node.rephrase, Node.relevance]) := by
    simp only [run_pipeline]
    rw [if_neg (by rw [hroute]; decide)]
  refine ⟨hroute, ?_, ?_, ?_, ?_, ?_, ?_⟩
  · rw [hrun]
  · rw [hrun]; simp
  · rw [hrun]; simp
  · rw [hrun]
    cases hasHistory <;> simp [relevanceNode, rephraseNode, initState]
  · rw [hrun]
    cases hasHistory <;> simp [relevanceNode, rephraseNode, initState]
  · rw [hrun]
    cases hasHistory <;> simp [relevanceNode, rephraseNode, initState]

theorem relevance_gate_short_circuit_witness :
    (⟨"q", false, some "not chemistry", "", true, none, true, none⟩
        : StageOracles).is_chemistry_related = false ∧
    (check_relevance_route (relevanceNode
        ⟨"q", false, some "not chemistry", "", true, none, true, none⟩
        (rephraseNode ⟨"q", false, some "not chemistry", "", true, none, true, none⟩
          (some "thời tiết") false initState)) = "end" ∧
      (run_pipeline ⟨"q", false, some "not chemistry", "", true, none, true, none⟩
          (fun _ => []) (some "thời tiết") false).2 = [Node.rephrase, Node.relevance] ∧
      Node.extract ∉ (run_pipeline ⟨"q", false, some "not chemistry", "", true, none, true, none⟩
          (fun _ => []) (some "thời tiết") false).2 ∧
      Node.retrieve ∉ (run_pipeline ⟨"q", false, some "not chemistry", "", true, none, true, none⟩
          (fun _ => []) (some "thời tiết") false).2 ∧
      (run_pipeline ⟨"q", false, some "not chemistry", "", true, none, true, none⟩
          (fun _ => []) (some "thời tiết") false).1.search_query = none ∧
      (run_pipeline ⟨"q", false, some "not chemistry", "", true, none, true, none⟩
          (fun _ => []) (some "thời tiết") false).1.needs_rag = none ∧
      (run_pipeline ⟨"q", false, some "not chemistry", "", true, none, true, none⟩
          (fun _ => []) (some "thời tiết") false).1.rag_context = none) :=
  ⟨rfl, relevance_gate_short_circuit
    ⟨"q", false, some "not chemistry", "", true, none, true, none⟩
    (fun _ => []) (some "thời tiết") false rfl⟩

end ChemBot
